import Mathlib

/-!
Shallow embedding of the analytics engines of the Conut hackathon repository
(`app/services/forecast_service.py`, `app/services/combo_service.py`,
`app/services/expansion_service.py`) together with theorems settling the
frozen claims about them.

Conventions of the embedding:
* Python floats are modelled as exact rationals; `round(x, n)` is modelled as
  half-up rounding (Python uses banker's rounding; the two differ only at
  exact ties, which no claim depends on).
* `list.sort` (stable Timsort) is modelled by a stable insertion sort
  (`ssort`); Python string comparison (by code point) is modelled by `strLt`.
* `np.delete(a, i)` with a single index is `List.eraseIdx`; for an in-range
  index the two agree (Python raises for an out-of-range index, which never
  happens on the inputs appearing in the claims).
* Free-text explanation strings in the result records are elided; fields
  that carry data the claims talk about are kept.
-/

/-- Half-up rounding of a rational to `d` decimal places, modelling
Python `round(x, d)` (which is exact banker's rounding on floats; the two
agree except at exact halfway points). -/
def roundTo (d : ℕ) (q : ℚ) : ℚ :=
  (⌊q * (10 : ℚ) ^ d + 1 / 2⌋ : ℚ) / (10 : ℚ) ^ d

/-- `round(x, 2)` from the source. -/
def round2 (q : ℚ) : ℚ := roundTo 2 q

/-- `round(x, 4)` from the source. -/
def round4 (q : ℚ) : ℚ := roundTo 4 q

theorem roundTo_mono (d : ℕ) {a b : ℚ} (h : a ≤ b) : roundTo d a ≤ roundTo d b := by
  unfold roundTo
  have hp : (0:ℚ) < (10 : ℚ) ^ d := by positivity
  gcongr

theorem roundTo_intCast (d : ℕ) (z : ℤ) : roundTo d ((z : ℚ)) = z := by
  unfold roundTo
  have hp : (0:ℚ) < (10 : ℚ) ^ d := by positivity
  have h1 : ((z : ℚ) * (10:ℚ)^d + 1/2) = ((z * 10 ^ d : ℤ) : ℚ) + 1/2 := by push_cast; ring
  have h2 : ⌊((z * 10 ^ d : ℤ) : ℚ) + 1/2⌋ = z * 10 ^ d := by
    rw [Int.floor_eq_iff]
    constructor
    · push_cast; linarith
    · push_cast; linarith
  rw [h1, h2]
  push_cast
  field_simp

theorem roundTo_nonneg (d : ℕ) {q : ℚ} (h : 0 ≤ q) : 0 ≤ roundTo d q := by
  have := roundTo_mono d h
  rwa [show (0:ℚ) = ((0:ℤ):ℚ) by norm_num, roundTo_intCast d 0] at this

theorem roundTo_le_of_le (d : ℕ) {q : ℚ} {z : ℤ} (h : q ≤ (z:ℚ)) :
    roundTo d q ≤ (z:ℚ) := by
  have := roundTo_mono d h
  rwa [roundTo_intCast d z] at this

theorem round2_mem_Icc {q : ℚ} (h0 : 0 ≤ q) (h1 : q ≤ 100) :
    0 ≤ round2 q ∧ round2 q ≤ 100 := by
  refine ⟨roundTo_nonneg 2 h0, ?_⟩
  have h2 : q ≤ ((100 : ℤ) : ℚ) := by exact_mod_cast h1
  have h3 := roundTo_le_of_le 2 h2
  exact_mod_cast h3

/-- Stable insertion of `x` into `l`: `x` goes before the first element `y`
with `lt x y`, hence after every earlier element whose key equals the key of
`x`.  Folding it left over a list reproduces the semantics of the stable
Python `list.sort`. -/
def sinsert {α : Type} (lt : α → α → Bool) (x : α) : List α → List α
  | [] => [x]
  | y :: l => if lt x y then x :: y :: l else y :: sinsert lt x l

/-- Stable sort modelling Python `list.sort` with strict comparator `lt`
(`lt a b` means the key of `a` is strictly smaller than the key of `b`). -/
def ssort {α : Type} (lt : α → α → Bool) (l : List α) : List α :=
  l.foldl (fun acc x => sinsert lt x acc) []

theorem sinsert_perm {α : Type} (lt : α → α → Bool) (x : α) (l : List α) :
    (sinsert lt x l).Perm (x :: l) := by
  induction l with
  | nil => simp [sinsert]
  | cons y t ih =>
      by_cases h : lt x y
      · simp [sinsert, h]
      · simp only [sinsert, h, if_neg, Bool.false_eq_true, not_false_iff, if_false]
        exact ((ih.cons y).trans (List.Perm.swap x y t))

theorem ssort_perm {α : Type} (lt : α → α → Bool) (l : List α) :
    (ssort lt l).Perm l := by
  suffices h : ∀ (l acc : List α),
      (l.foldl (fun acc x => sinsert lt x acc) acc).Perm (acc ++ l) by
    simpa using h l []
  intro l
  induction l with
  | nil => simp
  | cons x t ih =>
      intro acc
      simp only [List.foldl_cons]
      refine (ih (sinsert lt x acc)).trans ?_
      have h1 : (sinsert lt x acc ++ t).Perm ((x :: acc) ++ t) :=
        (sinsert_perm lt x acc).append_right t
      refine h1.trans ?_
      simpa using (@List.perm_middle _ x acc t).symm

theorem ssort_length {α : Type} (lt : α → α → Bool) (l : List α) :
    (ssort lt l).length = l.length :=
  (ssort_perm lt l).length_eq

theorem mem_ssort {α : Type} (lt : α → α → Bool) {x : α} {l : List α} :
    x ∈ ssort lt l ↔ x ∈ l :=
  (ssort_perm lt l).mem_iff

theorem sinsert_pairwise {α : Type} (lt : α → α → Bool)
    (hasym : ∀ a b, lt a b = true → lt b a = false)
    (htrans : ∀ a b c, lt a b = true → lt b c = true → lt a c = true)
    (x : α) (l : List α)
    (hl : l.Pairwise (fun a b => lt b a = false)) :
    (sinsert lt x l).Pairwise (fun a b => lt b a = false) := by
  induction l with
  | nil => simp [sinsert]
  | cons y t ih =>
      rcases List.pairwise_cons.mp hl with ⟨hy, ht⟩
      by_cases h : lt x y = true
      · rw [sinsert, if_pos h]
        refine List.pairwise_cons.mpr ⟨?_, hl⟩
        intro z hz
        rcases List.mem_cons.mp hz with hz | hz
        · subst hz; exact hasym x z h
        · have hyz : lt z y = false := hy z hz
          by_cases hzx : lt z x = true
          · have := htrans z x y hzx h
            rw [this] at hyz; cases hyz
          · simpa using hzx
      · rw [sinsert, if_neg h]
        refine List.pairwise_cons.mpr ⟨?_, ih ht⟩
        intro z hz
        rcases List.mem_cons.mp ((sinsert_perm lt x t).mem_iff.mp hz) with hz1 | hz1
        · subst hz1; simpa using h
        · exact hy z hz1

theorem ssort_pairwise {α : Type} (lt : α → α → Bool)
    (hasym : ∀ a b, lt a b = true → lt b a = false)
    (htrans : ∀ a b c, lt a b = true → lt b c = true → lt a c = true)
    (l : List α) :
    (ssort lt l).Pairwise (fun a b => lt b a = false) := by
  suffices h : ∀ (l acc : List α),
      acc.Pairwise (fun a b => lt b a = false) →
      (l.foldl (fun acc x => sinsert lt x acc) acc).Pairwise
        (fun a b => lt b a = false) by
    exact h l [] (by simp)
  intro l
  induction l with
  | nil => intro acc hacc; simpa using hacc
  | cons x t ih =>
      intro acc hacc
      simp only [List.foldl_cons]
      exact ih _ (sinsert_pairwise lt hasym htrans x acc hacc)

/-- First-occurrence deduplication, modelling `pandas.unique` /
`dict` key collection order. -/
def firstDedupAux {α : Type} [DecidableEq α] : List α → List α → List α
  | _, [] => []
  | seen, x :: xs =>
      if x ∈ seen then firstDedupAux seen xs
      else x :: firstDedupAux (x :: seen) xs

def firstDedup {α : Type} [DecidableEq α] (l : List α) : List α :=
  firstDedupAux [] l

theorem mem_firstDedupAux {α : Type} [DecidableEq α] {x : α} :
    ∀ {seen l : List α}, x ∈ firstDedupAux seen l → x ∈ l := by
  intro seen l
  induction l generalizing seen with
  | nil => simp [firstDedupAux]
  | cons y t ih =>
      intro h
      simp only [firstDedupAux] at h
      by_cases hy : y ∈ seen
      · rw [if_pos hy] at h
        exact List.mem_cons_of_mem _ (ih h)
      · rw [if_neg hy] at h
        rcases List.mem_cons.mp h with h1 | h1
        · simp [h1]
        · exact List.mem_cons_of_mem _ (ih h1)

theorem mem_firstDedup {α : Type} [DecidableEq α] {x : α} {l : List α} :
    x ∈ firstDedup l → x ∈ l := mem_firstDedupAux

/-- Code-point comparison of character lists: the order Python uses to
compare strings. -/
def chLt : List Char → List Char → Bool
  | [], [] => false
  | [], _ :: _ => true
  | _ :: _, [] => false
  | c :: cs, d :: ds =>
      if c.toNat < d.toNat then true
      else if d.toNat < c.toNat then false
      else chLt cs ds

/-- Python string comparison (strict, by code point). -/
def strLt (a b : String) : Bool := chLt a.toList b.toList

theorem chLt_asymm : ∀ a b, chLt a b = true → chLt b a = false := by
  intro a
  induction a with
  | nil => intro b _; cases b <;> simp [chLt]
  | cons c cs ih =>
      intro b h
      cases b with
      | nil => simp [chLt] at h
      | cons d ds =>
          simp only [chLt] at h ⊢
          by_cases h1 : c.toNat < d.toNat
          · have h2 : ¬ d.toNat < c.toNat := Nat.lt_asymm h1
            simp [h1, h2]
          · by_cases h2 : d.toNat < c.toNat
            · simp [h1, h2] at h
            · simp only [h1, h2, if_false] at h ⊢
              exact ih ds h

theorem chLt_trans : ∀ a b c, chLt a b = true → chLt b c = true → chLt a c = true := by
  intro a
  induction a with
  | nil =>
      intro b c hab hbc
      cases b with
      | nil => simp [chLt] at hab
      | cons d ds =>
          cases c with
          | nil => simp [chLt] at hbc
          | cons e es => simp [chLt]
  | cons x xs ih =>
      intro b c hab hbc
      cases b with
      | nil => simp [chLt] at hab
      | cons d ds =>
          cases c with
          | nil => simp [chLt] at hbc
          | cons e es =>
              simp only [chLt] at hab hbc ⊢
              by_cases h1 : x.toNat < d.toNat
              · by_cases h2 : d.toNat < e.toNat
                · have : x.toNat < e.toNat := Nat.lt_trans h1 h2
                  simp [this]
                · by_cases h3 : e.toNat < d.toNat
                  · simp [h2, h3] at hbc
                  · have hde : d.toNat = e.toNat := Nat.le_antisymm
                      (Nat.le_of_not_lt h3) (Nat.le_of_not_lt h2)
                    have : x.toNat < e.toNat := hde ▸ h1
                    simp [this]
              · by_cases h4 : d.toNat < x.toNat
                · simp [h1, h4] at hab
                · have hxd : x.toNat = d.toNat := Nat.le_antisymm
                    (Nat.le_of_not_lt h4) (Nat.le_of_not_lt h1)
                  by_cases h2 : d.toNat < e.toNat
                  · have : x.toNat < e.toNat := hxd ▸ h2
                    simp [this]
                  · by_cases h3 : e.toNat < d.toNat
                    · simp [h2, h3] at hbc
                    · simp only [h1, h4, if_false] at hab
                      simp only [h2, h3, if_false] at hbc
                      have hne : ¬ x.toNat < e.toNat := by
                        rw [hxd]; exact h2
                      have hne' : ¬ e.toNat < x.toNat := by
                        rw [hxd]; exact h3
                      simp only [hne, hne', if_false]
                      exact ih ds es hab hbc

/-! ## Demand forecaster (`app/services/forecast_service.py`) -/

/-- `MONTH_ORDER` from the source. -/
def MONTH_ORDER : List String :=
  ["January", "February", "March", "April", "May", "June",
   "July", "August", "September", "October", "November", "December"]

/-- `MONTH_TO_IDX` lookup; an unknown month maps to 12 so that it sorts
after every real month (pandas maps it to NaN, which also sorts last). -/
def monthIdx (m : String) : ℕ := MONTH_ORDER.findIdx (fun x => x = m)

/-- `MONTH_TO_IDX.get(m, 11)` from the source. -/
def monthIdxD11 (m : String) : ℕ :=
  if m ∈ MONTH_ORDER then MONTH_ORDER.findIdx (fun x => x = m) else 11

/-- `_month_name(base, offset)` from the source. -/
def monthName (base offset : ℕ) : String := MONTH_ORDER.getD ((base + offset) % 12) ""

/-- Strict comparison of rationals as a Bool comparator. -/
def qLt (a b : ℚ) : Bool := decide (a < b)

/-- `pandas.Series.median`: middle element of the sorted series, or the mean
of the two middle elements for an even length. -/
def median (l : List ℚ) : ℚ :=
  let s := ssort qLt l
  let n := s.length
  if n = 0 then 0
  else if n % 2 = 1 then s.getD (n / 2) 0
  else (s.getD (n / 2 - 1) 0 + s.getD (n / 2) 0) / 2

/-- `_detect_anomalies`: indices whose value is below 15 percent of the
series median; empty for series shorter than 3 or a zero median. -/
def detectAnomalies (s : List ℚ) : List ℕ :=
  if s.length < 3 then []
  else if median s = 0 then []
  else (List.range s.length).filter (fun i => decide (s.getD i 0 < (0.15 : ℚ) * median s))

/-- The `clean_values` loop of `forecast_branch_demand` lines 139-145: one
`np.delete(clean_values, idx)` per flagged index, applied to the already
shortened list (`List.eraseIdx` agrees with single-index `np.delete` for
in-range indices). -/
def cleanSeries (raw : List ℚ) : List ℚ :=
  (detectAnomalies raw).foldl (fun acc i => acc.eraseIdx i) raw

/-- Simultaneous deletion of a set of positions, the semantics of
`np.delete(values, index_list)` used by the demand-index pass (and what the
spec describes: excluding exactly the flagged points). -/
def removeIdxs (raw : List ℚ) (idxs : List ℕ) : List ℚ :=
  ((List.range raw.length).filter (fun i => decide (i ∉ idxs))).map (fun i => raw.getD i 0)

/-- `_naive_forecast`: repeat the last observed value. -/
def naiveForecast (values : List ℚ) (horizon : ℕ) : List ℚ :=
  List.replicate horizon (values.getLastD 0)

/-- Dot product of a list with the weights `k, k+1, k+2, ...`. -/
def dotW : List ℚ → ℕ → ℚ
  | [], _ => 0
  | v :: vs, k => v * (k : ℚ) + dotW vs (k + 1)

/-- The constant value of `_wma_forecast`: weighted moving average of the
last `min 4 n` values with weights `1..n` normalised to sum 1. -/
def wmaValue (values : List ℚ) : ℚ :=
  let n := min values.length 4
  let window := values.drop (values.length - n)
  dotW window 1 / ((n * (n + 1) / 2 : ℕ) : ℚ)

/-- `_wma_forecast`. -/
def wmaForecast (values : List ℚ) (horizon : ℕ) : List ℚ :=
  List.replicate horizon (wmaValue values)

/-- Mean of a list of rationals (0 for the empty list, since `x / 0 = 0`). -/
def meanQ (l : List ℚ) : ℚ := l.sum / (l.length : ℚ)

/-- Running sum of `(i - xbar) * (v_i - ybar)`. -/
def sumIdxProd : List ℚ → ℕ → ℚ → ℚ → ℚ
  | [], _, _, _ => 0
  | v :: vs, i, xbar, ybar => ((i : ℚ) - xbar) * (v - ybar) + sumIdxProd vs (i + 1) xbar ybar

/-- Running sum of `(i - xbar) ^ 2` over `count` indices starting at `i`. -/
def sumIdxSq : ℕ → ℕ → ℚ → ℚ
  | 0, _, _ => 0
  | n + 1, i, xbar => ((i : ℚ) - xbar) ^ 2 + sumIdxSq n (i + 1) xbar

/-- OLS slope of value against the zero-based index
(`LinearRegression().fit` of `_trend_forecast`); for a singular design
(fewer than 2 points) both sums are 0 and the slope is 0, matching the
minimum-norm solution used by scikit-learn. -/
def olsSlope (values : List ℚ) : ℚ :=
  let xbar : ℚ := ((values.length : ℚ) - 1) / 2
  sumIdxProd values 0 xbar (meanQ values) / sumIdxSq values.length 0 xbar

/-- OLS intercept. -/
def olsIntercept (values : List ℚ) : ℚ :=
  meanQ values - olsSlope values * (((values.length : ℚ) - 1) / 2)

/-- `_trend_forecast`: extrapolate the OLS line to indices `n .. n+h-1`,
clamping negatives to zero. -/
def trendForecast (values : List ℚ) (horizon : ℕ) : List ℚ :=
  (List.range horizon).map fun (k : ℕ) =>
    max 0 (olsIntercept values + olsSlope values * ((values.length : ℚ) + (k : ℚ)))

/-- `_classify_trend`. -/
def classifyTrend (values : List ℚ) : String :=
  if values.length < 2 then "insufficient data"
  else if meanQ values = 0 then "stable"
  else if (0.10 : ℚ) < olsSlope values / meanQ values then "growing"
  else if olsSlope values / meanQ values < -(0.10 : ℚ) then "declining"
  else "stable"

/-- One row of `monthly_sales_by_branch.csv`. -/
structure SalesRow where
  branch : String
  year : ℤ
  month : String
  total : ℚ
deriving DecidableEq, Inhabited

/-- Strict comparator for `df.sort_values(["branch", "year", "month_idx"])`. -/
def salesLt (r s : SalesRow) : Bool :=
  if strLt r.branch s.branch then true
  else if strLt s.branch r.branch then false
  else if r.year < s.year then true
  else if s.year < r.year then false
  else decide (monthIdx r.month < monthIdx s.month)

/-- `_load_data`: the table sorted chronologically per branch. -/
def sortedSales (df : List SalesRow) : List SalesRow := ssort salesLt df

/-- `sorted(df["branch"].unique().tolist())`. -/
def branchesOf (df : List SalesRow) : List String :=
  ssort strLt (firstDedup (df.map (fun r => r.branch)))

/-- The rows of one branch, in chronological order. -/
def branchRows (df : List SalesRow) (b : String) : List SalesRow :=
  (sortedSales df).filter (fun r => r.branch = b)

/-- `raw_values` of `forecast_branch_demand`. -/
def rawSeries (df : List SalesRow) (b : String) : List ℚ :=
  (branchRows df b).map (fun r => r.total)

/-- `months_list` of `forecast_branch_demand`. -/
def monthsOf (df : List SalesRow) (b : String) : List String :=
  (branchRows df b).map (fun r => r.month)

/-- One branch's 1-month-ahead ensemble forecast used for the demand index
(`branch_fc_1`); note this pass uses the batch form `np.delete(bvals, b_anom)`,
which removes exactly the flagged indices. -/
def branchFc1 (df : List SalesRow) (b : String) : ℚ :=
  let bvals := rawSeries df b
  let banom := detectAnomalies bvals
  let bclean := if banom = [] then bvals else removeIdxs bvals banom
  if bclean.length = 0 then 0
  else ((naiveForecast bclean 1).getD 0 0 + (wmaForecast bclean 1).getD 0 0
        + (trendForecast bclean 1).getD 0 0) / 3

/-- `demand_index`: this branch's share of the cross-branch 1-month total. -/
def demandIndexOf (df : List SalesRow) (b : String) : ℚ :=
  let total := ((branchesOf df).map (branchFc1 df)).sum
  if total = 0 then 0 else round4 (branchFc1 df b / total)

/-- `mom_growth`: percentage change of consecutive clean values, skipping
pairs whose left value is zero. -/
def momGrowthList : List ℚ → List ℚ
  | [] => []
  | [_] => []
  | a :: b :: t =>
      (if a ≠ 0 then [round2 ((b - a) / a * 100)] else []) ++ momGrowthList (b :: t)

/-- One entry of the `history` echo. -/
structure HistPoint where
  month : String
  total : ℚ
deriving DecidableEq, Inhabited

/-- One entry of the `forecasts` array. -/
structure ForecastPoint where
  month : String
  naive : ℚ
  wma : ℚ
  trend : ℚ
  ensemble : ℚ
deriving DecidableEq, Inhabited

/-- The successful result record of `forecast_branch_demand` (free-text
explanation elided; the anomaly notes are represented by the list of flagged
indices, one note per index). -/
structure ForecastOk where
  branch : String
  horizonMonths : ℕ
  trend : String
  confidence : String
  demandIndex : ℚ
  avgMomGrowthPct : Option ℚ
  history : List HistPoint
  forecasts : List ForecastPoint
  anomalies : List ℕ
deriving DecidableEq, Inhabited

/-- Result of `forecast_branch_demand`: either the unknown-branch error
record (which has no `forecasts` array) or the full record. -/
inductive ForecastResult where
  | unknownBranch (branch : String) (available : List String)
  | ok (r : ForecastOk)
deriving DecidableEq

/-- The body of `forecast_branch_demand` after branch validation. -/
def forecastOkOf (df : List SalesRow) (branch : String) (horizon : ℕ) : ForecastOk :=
  let rawValues := rawSeries df branch
  let monthsList := monthsOf df branch
  let nMonths := rawValues.length
  let anomalyIdx := detectAnomalies rawValues
  let values := cleanSeries rawValues
  let naiveFc := naiveForecast values horizon
  let wmaFc := wmaForecast values horizon
  let trendFc := trendForecast values horizon
  let ensembleFc :=
    List.zipWith (fun nw t => round2 ((nw.1 + nw.2 + t) / 3)) (naiveFc.zip wmaFc) trendFc
  let lastMonthIdx := monthIdxD11 (monthsList.getLastD "")
  let monthly : List ForecastPoint := (List.range horizon).map fun i =>
    { month := monthName lastMonthIdx (i + 1),
      naive := round2 (naiveFc.getD i 0),
      wma := round2 (wmaFc.getD i 0),
      trend := round2 (trendFc.getD i 0),
      ensemble := ensembleFc.getD i 0 }
  let momGrowth := momGrowthList values
  { branch := branch,
    horizonMonths := horizon,
    trend := classifyTrend values,
    confidence := if 6 ≤ nMonths then "medium" else if 4 ≤ nMonths then "low-medium" else "low",
    demandIndex := demandIndexOf df branch,
    avgMomGrowthPct := if momGrowth = [] then none else some (round2 (meanQ momGrowth)),
    history := List.zipWith (fun m v => { month := m, total := round2 v }) monthsList rawValues,
    forecasts := monthly,
    anomalies := anomalyIdx }

/-- `forecast_branch_demand`. -/
def forecastBranchDemand (df : List SalesRow) (branch : String) (horizon : ℕ) : ForecastResult :=
  if branch ∈ branchesOf df then ForecastResult.ok (forecastOkOf df branch horizon)
  else ForecastResult.unknownBranch branch (branchesOf df)

/-! ## Forecast theorems -/

theorem getD_range_map {α : Type} (f : ℕ → α) (hz i : ℕ) (hi : i < hz) (d : α) :
    ((List.range hz).map f).getD i d = f i := by
  rw [List.getD_eq_getElem?_getD, List.getElem?_map, List.getElem?_range hi]
  rfl

theorem getD_replicate {α : Type} (a : α) (hz i : ℕ) (hi : i < hz) (d : α) :
    (List.replicate hz a).getD i d = a := by
  rw [List.getD_eq_getElem?_getD, List.getElem?_replicate, if_pos hi]
  rfl

theorem getD_ensemble_zip (a b c : List ℚ) (hz i : ℕ)
    (ha : a.length = hz) (hb : b.length = hz) (hc : c.length = hz) (hi : i < hz) :
    (List.zipWith (fun nw t => round2 ((nw.1 + nw.2 + t) / 3)) (a.zip b) c).getD i 0
      = round2 ((a.getD i 0 + b.getD i 0 + c.getD i 0) / 3) := by
  have hzip : (a.zip b).length = hz := by
    rw [List.length_zip, ha, hb]; exact min_self hz
  have hlen : (List.zipWith (fun nw t => round2 ((nw.1 + nw.2 + t) / 3)) (a.zip b) c).length = hz := by
    rw [List.length_zipWith, hzip, hc]; exact min_self hz
  have hi1 : i < (List.zipWith (fun nw t => round2 ((nw.1 + nw.2 + t) / 3)) (a.zip b) c).length := by
    rw [hlen]; exact hi
  rw [List.getD_eq_getElem _ _ hi1, List.getElem_zipWith, List.getElem_zip,
    List.getD_eq_getElem _ _ (ha ▸ hi), List.getD_eq_getElem _ _ (hb ▸ hi),
    List.getD_eq_getElem _ _ (hc ▸ hi)]

theorem length_naiveForecast (values : List ℚ) (hz : ℕ) :
    (naiveForecast values hz).length = hz := List.length_replicate hz _

theorem length_wmaForecast (values : List ℚ) (hz : ℕ) :
    (wmaForecast values hz).length = hz := List.length_replicate hz _

theorem length_trendForecast (values : List ℚ) (hz : ℕ) :
    (trendForecast values hz).length = hz := by
  unfold trendForecast
  rw [List.length_map, List.length_range]

/-- Claim C5: in every forecast point produced by the forecaster, the
`ensemble` value equals the 2-decimal rounding of the arithmetic mean of the
naive, weighted-moving-average and trend estimates for that step, the three
estimators being applied to the cleaned series. -/
theorem claim_c5_ensemble_is_mean (df : List SalesRow) (b : String) (hz i : ℕ)
    (hi : i < hz) :
    ((forecastOkOf df b hz).forecasts.getD i default).ensemble =
      round2 (((naiveForecast (cleanSeries (rawSeries df b)) hz).getD i 0
        + (wmaForecast (cleanSeries (rawSeries df b)) hz).getD i 0
        + (trendForecast (cleanSeries (rawSeries df b)) hz).getD i 0) / 3) := by
  unfold forecastOkOf
  rw [getD_range_map _ hz i hi]
  exact getD_ensemble_zip _ _ _ hz i
    (length_naiveForecast _ hz) (length_wmaForecast _ hz) (length_trendForecast _ hz) hi

/-- A tiny concrete monthly-sales table used to instantiate forecaster
theorems. -/
def dfTiny : List SalesRow :=
  [{ branch := "Hamra", year := 2025, month := "August", total := 10 }]

theorem claim_c5_witness :
    (0 : ℕ) < 1 ∧
    ((forecastOkOf dfTiny "Hamra" 1).forecasts.getD 0 default).ensemble =
      round2 (((naiveForecast (cleanSeries (rawSeries dfTiny "Hamra")) 1).getD 0 0
        + (wmaForecast (cleanSeries (rawSeries dfTiny "Hamra")) 1).getD 0 0
        + (trendForecast (cleanSeries (rawSeries dfTiny "Hamra")) 1).getD 0 0) / 3) :=
  ⟨by decide, claim_c5_ensemble_is_mean dfTiny "Hamra" 1 0 (by decide)⟩

/-- Claim C6: every value produced by the trend-regression estimator is
non-negative (a negative OLS extrapolation is clamped to zero). -/
theorem claim_c6_trend_nonneg (values : List ℚ) (horizon : ℕ) (x : ℚ)
    (hx : x ∈ trendForecast values horizon) : 0 ≤ x := by
  unfold trendForecast at hx
  rcases List.mem_map.mp hx with ⟨k, _, rfl⟩
  exact le_max_left 0 _

theorem claim_c6_witness :
    (3 : ℚ) ∈ trendForecast [1, 2] 2 ∧ 0 ≤ (3 : ℚ) := by
  have hmem : (3 : ℚ) ∈ trendForecast [1, 2] 2 := by
    unfold trendForecast
    refine List.mem_map.mpr ⟨0, by decide, ?_⟩
    norm_num [olsIntercept, olsSlope, meanQ, sumIdxProd, sumIdxSq]
  exact ⟨hmem, claim_c6_trend_nonneg [1, 2] 2 3 hmem⟩

/-- Claim C8: for a branch absent from the monthly-sales table the
forecaster returns the unknown-branch record, which carries the full list of
valid branch names and has no forecasts array. -/
theorem claim_c8_unknown_branch (df : List SalesRow) (b : String) (hz : ℕ)
    (h : b ∉ branchesOf df) :
    forecastBranchDemand df b hz = ForecastResult.unknownBranch b (branchesOf df) := by
  unfold forecastBranchDemand
  rw [if_neg h]

theorem claim_c8_witness :
    "Nowhere" ∉ branchesOf dfTiny ∧
    forecastBranchDemand dfTiny "Nowhere" 3 =
      ForecastResult.unknownBranch "Nowhere" (branchesOf dfTiny) :=
  ⟨by decide, claim_c8_unknown_branch dfTiny "Nowhere" 3 (by decide)⟩

/-- The failing series for claim C1: three anomaly-free points plus two
points below 15 percent of the median (median 100, threshold 15). -/
def vBug : List ℚ := [1, 2, 100, 110, 120]

/-- The failing monthly-sales table for claim C1. -/
def dfBug : List SalesRow :=
  [{ branch := "Hamra", year := 2025, month := "August", total := 1 },
   { branch := "Hamra", year := 2025, month := "September", total := 2 },
   { branch := "Hamra", year := 2025, month := "October", total := 100 },
   { branch := "Hamra", year := 2025, month := "November", total := 110 },
   { branch := "Hamra", year := 2025, month := "December", total := 120 }]

theorem detectAnomalies_vBug : detectAnomalies vBug = [0, 1] := by
  have hr : List.range 5 = [0, 1, 2, 3, 4] := rfl
  norm_num [detectAnomalies, median, vBug, ssort, sinsert, qLt, hr,
    List.getD_cons_zero, List.getD_cons_succ]

theorem cleanSeries_vBug : cleanSeries vBug = [2, 110, 120] := by
  rw [cleanSeries, detectAnomalies_vBug]
  norm_num [vBug, List.eraseIdx]

/-- Claim C1 (failing-input evaluation): on the series `[1, 2, 100, 110, 120]`
the detector flags exactly the points at indices 0 and 1 (values 1 and 2),
the spec-described exclusion of exactly those points would leave
`[100, 110, 120]`, but the `clean_values` loop leaves `[2, 110, 120]`: the
second `np.delete` call uses the original index 1 against the already
shortened list, so the value 2 is kept and the value 100 is dropped.  The
raw history is still echoed in full. -/
theorem claim_c1_stale_index_deletion :
    detectAnomalies vBug = [0, 1] ∧
    removeIdxs vBug (detectAnomalies vBug) = [100, 110, 120] ∧
    cleanSeries vBug = [2, 110, 120] ∧
    cleanSeries vBug ≠ removeIdxs vBug (detectAnomalies vBug) ∧
    rawSeries dfBug "Hamra" = vBug ∧
    (forecastOkOf dfBug "Hamra" 1).anomalies = [0, 1] ∧
    (forecastOkOf dfBug "Hamra" 1).history.map HistPoint.total = vBug := by
  have e1 : strLt "Hamra" "Hamra" = false := by decide
  have e2 : monthIdx "August" = 7 := by decide
  have e3 : monthIdx "September" = 8 := by decide
  have e4 : monthIdx "October" = 9 := by decide
  have e5 : monthIdx "November" = 10 := by decide
  have e6 : monthIdx "December" = 11 := by decide
  have hsort : sortedSales dfBug = dfBug := by
    norm_num [sortedSales, dfBug, ssort, sinsert, salesLt, e1, e2, e3, e4, e5, e6]
  have hraw : rawSeries dfBug "Hamra" = vBug := by
    simp only [rawSeries, branchRows]
    rw [hsort]
    norm_num [dfBug, vBug]
  have hrem : removeIdxs vBug (detectAnomalies vBug) = [100, 110, 120] := by
    rw [detectAnomalies_vBug]
    have hr : List.range 5 = [0, 1, 2, 3, 4] := rfl
    norm_num [removeIdxs, vBug, hr, List.getD_cons_zero, List.getD_cons_succ]
  refine ⟨detectAnomalies_vBug, hrem, cleanSeries_vBug, ?_, hraw, ?_, ?_⟩
  · rw [cleanSeries_vBug, hrem]
    norm_num
  · show detectAnomalies (rawSeries dfBug "Hamra") = [0, 1]
    rw [hraw]
    exact detectAnomalies_vBug
  · show (List.zipWith (fun m v => { month := m, total := round2 v : HistPoint })
        (monthsOf dfBug "Hamra") (rawSeries dfBug "Hamra")).map HistPoint.total = vBug
    rw [hraw]
    have hm : monthsOf dfBug "Hamra" =
        ["August", "September", "October", "November", "December"] := by
      simp only [monthsOf, branchRows]
      rw [hsort]
      norm_num [dfBug]
    rw [hm]
    norm_num [vBug, round2, roundTo]

/-! ## Combo engines (`app/services/combo_service.py`) -/

/-- One entry of the non-AI `recommendations` list (statistical fields;
the pricing and average-revenue fields are elided, no claim mentions them). -/
structure ComboRec where
  itemA : String
  itemB : String
  support : ℚ
  confidenceAToB : ℚ
  confidenceBToA : ℚ
  lift : ℚ
  basketCount : ℕ
deriving DecidableEq, Inhabited

/-- `itertools.combinations(sorted_items, 2)` over an already sorted list. -/
def pairsOf : List String → List (String × String)
  | [] => []
  | x :: xs => xs.map (fun y => (x, y)) ++ pairsOf xs

/-- `sorted(set(items))`: distinct item names of one basket in code-point
order. -/
def itemsSorted (basket : List String) : List String :=
  ssort strLt (firstDedup basket)

/-- `_build_baskets_and_revenue`: keep only baskets with at least two
distinct items. -/
def basketsOf (raw : List (List String)) : List (List String) :=
  (raw.map itemsSorted).filter (fun b => 2 ≤ b.length)

/-- Increment the count of a pair in an association list, keeping the
first-encounter order of keys — the iteration order of a Python `Counter`. -/
def bumpPair : List ((String × String) × ℕ) → (String × String) → List ((String × String) × ℕ)
  | [], p => [(p, 1)]
  | (q, c) :: t, p => if q = p then (q, c + 1) :: t else (q, c) :: bumpPair t p

/-- `pair_counts` in first-encounter order. -/
def pairCounts (baskets : List (List String)) : List ((String × String) × ℕ) :=
  baskets.foldl (fun acc b => (pairsOf b).foldl bumpPair acc) []

/-- `item_counts[it]`: the number of baskets containing the item. -/
def itemCount (baskets : List (List String)) (it : String) : ℕ :=
  (baskets.filter (fun b => it ∈ b)).length

/-- Comparator of `results.sort(key=lambda r: r["lift"], reverse=True)`:
descending by the rounded lift, stable. -/
def comboLt (a b : ComboRec) : Bool := decide (b.lift < a.lift)

/-- The `recommendations` list of `recommend_combos`, starting from the
per-basket distinct-item sets (the stage after row filtering and basket
grouping): pair statistics, threshold filtering, stable descending sort by
lift, truncation to `top_k`. -/
def recommendCombosCore (rawBaskets : List (List String)) (topK : ℕ)
    (minSupport minConfidence minLift : ℚ) : List ComboRec :=
  let baskets := basketsOf rawBaskets
  let total := baskets.length
  let results := (pairCounts baskets).filterMap (fun pc =>
    let cab : ℕ := pc.2
    let support : ℚ := (cab : ℚ) / (total : ℚ)
    if support < minSupport then none
    else
      let ca := itemCount baskets pc.1.1
      let cb := itemCount baskets pc.1.2
      let supA : ℚ := (ca : ℚ) / (total : ℚ)
      let supB : ℚ := (cb : ℚ) / (total : ℚ)
      let confAB : ℚ := (cab : ℚ) / (ca : ℚ)
      let confBA : ℚ := (cab : ℚ) / (cb : ℚ)
      let lift : ℚ := if 0 < supA * supB then support / (supA * supB) else 0
      if confAB < minConfidence ∧ confBA < minConfidence then none
      else if lift < minLift then none
      else some { itemA := pc.1.1, itemB := pc.1.2, support := round4 support,
                  confidenceAToB := round4 confAB, confidenceBToA := round4 confBA,
                  lift := round4 lift, basketCount := cab })
  (ssort comboLt results).take topK

/-- The ordering the claim asserts for ties: code-point lexicographic order
on the item pair. -/
def pairLeB (p q : String × String) : Bool :=
  if chLt p.1.toList q.1.toList then true
  else if p.1 = q.1 then (chLt p.2.toList q.2.toList || decide (p.2 = q.2)) else false

/-- The sort order stated by claim C4: strictly descending lift, equal-lift
pairs in lexicographic pair order. -/
def claimC4Order (l : List ComboRec) : Prop :=
  l.Pairwise (fun a b => b.lift < a.lift ∨
    (a.lift = b.lift ∧ pairLeB (a.itemA, a.itemB) (b.itemA, b.itemB) = true))

/-- Four baskets producing two equal-lift pairs whose first-encounter order
is not lexicographic. -/
def bask4 : List (List String) := [["B", "C"], ["A", "D"], ["B", "C"], ["A", "D"]]

theorem c4_eval :
    recommendCombosCore bask4 5 (2/100) (15/100) 1 =
      [{ itemA := "B", itemB := "C", support := 1/2, confidenceAToB := 1,
         confidenceBToA := 1, lift := 2, basketCount := 2 },
       { itemA := "A", itemB := "D", support := 1/2, confidenceAToB := 1,
         confidenceBToA := 1, lift := 2, basketCount := 2 }] := by
  have hb : basketsOf bask4 = [["B","C"],["A","D"],["B","C"],["A","D"]] := by decide
  have hpc : pairCounts [["B","C"],["A","D"],["B","C"],["A","D"]] =
      [(("B","C"), 2), (("A","D"), 2)] := by decide
  have hiB : itemCount [["B","C"],["A","D"],["B","C"],["A","D"]] "B" = 2 := by decide
  have hiC : itemCount [["B","C"],["A","D"],["B","C"],["A","D"]] "C" = 2 := by decide
  have hiA : itemCount [["B","C"],["A","D"],["B","C"],["A","D"]] "A" = 2 := by decide
  have hiD : itemCount [["B","C"],["A","D"],["B","C"],["A","D"]] "D" = 2 := by decide
  simp only [recommendCombosCore, hb, hpc]
  norm_num [List.filterMap_cons, hiB, hiC, hiA, hiD, ssort, sinsert, comboLt,
    round4, roundTo]

/-- Claim C4 (counterexample): on four baskets `{B,C}, {A,D}, {B,C}, {A,D}`
with the default thresholds both retained pairs have lift 2, yet the output
keeps the first-encounter order `(B,C), (A,D)`, which is not the
lexicographic pair order the claim asserts for ties (the Python sort is
stable and its key is the lift alone). -/
theorem claim_c4_counterexample :
    ((recommendCombosCore bask4 5 (2/100) (15/100) 1).map (fun r => (r.itemA, r.itemB)) =
      [("B", "C"), ("A", "D")]) ∧
    ((recommendCombosCore bask4 5 (2/100) (15/100) 1).map ComboRec.lift = [2, 2]) ∧
    pairLeB ("A", "D") ("B", "C") = true ∧
    ¬ claimC4Order (recommendCombosCore bask4 5 (2/100) (15/100) 1) := by
  rw [c4_eval]
  refine ⟨by norm_num, by norm_num, by decide, ?_⟩
  intro h
  simp only [claimC4Order, List.pairwise_cons] at h
  obtain ⟨h1, -⟩ := h
  have h2 := h1 _ (List.mem_cons_self _ _)
  rcases h2 with h2 | ⟨-, h2⟩
  · norm_num at h2
  · exact absurd h2 (by decide)

/-- Claim C4 (amended): the recommendations list of `recommend_combos` is
sorted in non-increasing order of lift and contains at most `top_k` entries
(ties keep the stable first-encounter order rather than lexicographic pair
order). -/
theorem claim_c4_sorted_topk (rawBaskets : List (List String)) (topK : ℕ)
    (minSupport minConfidence minLift : ℚ) :
    (recommendCombosCore rawBaskets topK minSupport minConfidence minLift).Pairwise
      (fun a b => b.lift ≤ a.lift) ∧
    (recommendCombosCore rawBaskets topK minSupport minConfidence minLift).length ≤ topK := by
  have hasym : ∀ a b : ComboRec, comboLt a b = true → comboLt b a = false := by
    intro a b h
    simp only [comboLt, decide_eq_true_eq] at h
    simp only [comboLt, decide_eq_false_iff_not]
    exact lt_asymm h
  have htrans : ∀ a b c : ComboRec, comboLt a b = true → comboLt b c = true →
      comboLt a c = true := by
    intro a b c hab hbc
    simp only [comboLt, decide_eq_true_eq] at hab hbc ⊢
    exact lt_trans hbc hab
  unfold recommendCombosCore
  constructor
  · refine List.Pairwise.sublist (List.take_sublist _ _) ?_
    refine (ssort_pairwise comboLt hasym htrans _).imp ?_
    intro a b hab
    simp only [comboLt, decide_eq_false_iff_not] at hab
    exact le_of_not_lt hab
  · exact List.length_take_le _ _

/-- One entry of the ML `recommendations` list (pricing fields elided). -/
structure MLRec where
  itemA : String
  itemB : String
  similarity : ℚ
  supportTrain : ℚ
deriving DecidableEq, Inhabited

/-- Comparator of the ML sort key
`(-similarity, -support_train, item_a, item_b)` in ascending order. -/
def mlLt (a b : MLRec) : Bool :=
  if b.similarity < a.similarity then true
  else if a.similarity < b.similarity then false
  else if b.supportTrain < a.supportTrain then true
  else if a.supportTrain < b.supportTrain then false
  else if strLt a.itemA b.itemA then true
  else if strLt b.itemA a.itemA then false
  else strLt a.itemB b.itemB

/-- `ml_pairs.sort(...)[:top_k]`. -/
def mlTopResults (mlPairs : List MLRec) (topK : ℕ) : List MLRec :=
  (ssort mlLt mlPairs).take topK

/-- `hits`: the number of distinct predicted pairs present in the held-out
test pairs (`predicted_pairs` is a Python set, hence the deduplication). -/
def mlHits (topResults : List MLRec) (testPairs : List (String × String)) : ℕ :=
  ((firstDedup (topResults.map (fun r => (r.itemA, r.itemB)))).filter
    (fun p => decide (p ∈ testPairs))).length

/-- The `ml_precision_at_k` computation of `recommend_combos_ml` lines
333-349: `None` when no test pairs exist or the model produced no candidate
pairs, otherwise `round(hits / top_k, 4)`. -/
def mlPrecisionAtK (mlPairs : List MLRec) (topK : ℕ)
    (testPairs : List (String × String)) : Option ℚ :=
  let topResults := mlTopResults mlPairs topK
  if testPairs = [] then none
  else if topResults = [] then none
  else some (round4 ((mlHits topResults testPairs : ℚ) / (topK : ℚ)))

/-- A single candidate pair for the C2 counterexample. -/
def mlP1 : List MLRec :=
  [{ itemA := "A", itemB := "B", similarity := 1/2, supportTrain := 1/2 }]

/-- A held-out test-pair set containing that pair. -/
def testsC2 : List (String × String) := [("A", "B")]

theorem mlTop_mlP1 : mlTopResults mlP1 5 = mlP1 := by
  simp [mlTopResults, ssort, sinsert, mlP1]

/-- Claim C2 (counterexample): with a single candidate pair, `top_k = 5` and
a non-empty set of true test pairs, fewer than K candidates exist and yet
the code reports `hits / top_k = 1/5` instead of the `None` the claim
asserts for that case. -/
theorem claim_c2_counterexample :
    (mlTopResults mlP1 5).length < 5 ∧
    testsC2 ≠ [] ∧
    mlPrecisionAtK mlP1 5 testsC2 = some (1/5) := by
  refine ⟨by rw [mlTop_mlP1]; norm_num [mlP1], by simp [testsC2], ?_⟩
  have hh : mlHits [{ itemA := "A", itemB := "B", similarity := 1/2, supportTrain := 1/2 }]
      [("A", "B")] = 1 := by decide
  simp only [mlPrecisionAtK, mlTop_mlP1]
  norm_num [mlP1, testsC2, hh, round4, roundTo]

/-- Claim C2 (amended): `ml_precision_at_k` is `None` exactly when there are
no true test pairs or no candidate pairs at all; whenever at least one
candidate and at least one test pair exist — even with fewer than K
candidates — it equals `round(hits / K, 4)`, and the division is by a
positive K (an empty truncation is returned for `top_k = 0`), so no division
by zero occurs. -/
theorem claim_c2_precision (mlPairs : List MLRec) (topK : ℕ)
    (testPairs : List (String × String)) :
    (mlPrecisionAtK mlPairs topK testPairs = none ↔
      testPairs = [] ∨ mlTopResults mlPairs topK = []) ∧
    (testPairs ≠ [] → mlTopResults mlPairs topK ≠ [] →
      mlPrecisionAtK mlPairs topK testPairs
        = some (round4 ((mlHits (mlTopResults mlPairs topK) testPairs : ℚ) / (topK : ℚ)))
      ∧ 0 < topK) := by
  constructor
  · unfold mlPrecisionAtK
    by_cases h1 : testPairs = []
    · simp [h1]
    · by_cases h2 : mlTopResults mlPairs topK = []
      · simp [h1, h2]
      · simp [h1, h2]
  · intro h1 h2
    constructor
    · unfold mlPrecisionAtK
      rw [if_neg h1, if_neg h2]
    · by_contra hk
      have hk0 : topK = 0 := Nat.eq_zero_of_not_pos hk
      apply h2
      unfold mlTopResults
      rw [hk0]
      exact List.take_zero _

theorem claim_c2_witness :
    testsC2 ≠ [] ∧ mlTopResults mlP1 5 ≠ [] ∧
    (mlPrecisionAtK mlP1 5 testsC2
      = some (round4 ((mlHits (mlTopResults mlP1 5) testsC2 : ℚ) / (5 : ℚ)))
      ∧ 0 < 5) := by
  have h1 : testsC2 ≠ [] := by simp [testsC2]
  have h2 : mlTopResults mlP1 5 ≠ [] := by rw [mlTop_mlP1]; simp [mlP1]
  exact ⟨h1, h2, by exact_mod_cast claim_c2_precision mlP1 5 testsC2 |>.2 h1 h2⟩

/-! ## Expansion evaluator (`app/services/expansion_service.py`) -/

/-- One row of `avg_sales_by_menu_channel.csv`. -/
structure ChannelRow where
  branch : String
  channel : String
  avgPerCustomer : ℚ
  sales : ℚ
deriving DecidableEq, Inhabited

/-- One row of `customer_orders_delivery.csv`. -/
structure CustRow where
  branch : String
  numOrders : ℕ
deriving DecidableEq, Inhabited

/-- One row of `Sales by items and groups.csv`. -/
structure ItemRow where
  branch : String
  description : String
  division : String
  totalAmount : ℚ
deriving DecidableEq, Inhabited

/-- One row of `Summary by division-menu channel.csv`. -/
structure DivChanRow where
  sectionName : String
  item : String
  total : ℚ
deriving DecidableEq, Inhabited

/-- One row of `lebanon_candidate_areas.csv`. -/
structure AreaRow where
  area : String
  governorate : String
  estimatedPopulation : ℚ
  universityNearby : ℤ
  footTrafficTier : ℤ
  commercialRentTier : ℤ
  estimatedCafeDensity : String
  conutPresent : ℤ
deriving DecidableEq, Inhabited

/-- The six loaded tables of the expansion evaluator. -/
structure Tables where
  ms : List SalesRow
  ch : List ChannelRow
  co : List CustRow
  items : List ItemRow
  dc : List DivChanRow
  areas : List AreaRow
deriving DecidableEq, Inhabited

/-- `max` of a list with a default for the empty list, modelling
`max(values) if values else d`. -/
def maxD {α : Type} [LinearOrder α] (l : List α) (d : α) : α :=
  match l with
  | [] => d
  | x :: xs => xs.foldl max x

theorem le_foldl_max {α : Type} [LinearOrder α] (xs : List α) (i : α) :
    i ≤ xs.foldl max i ∧ ∀ a ∈ xs, a ≤ xs.foldl max i := by
  induction xs generalizing i with
  | nil => simp
  | cons x t ih =>
      simp only [List.foldl_cons]
      refine ⟨le_trans (le_max_left i x) (ih (max i x)).1, ?_⟩
      intro a ha
      rcases List.mem_cons.mp ha with ha1 | ha1
      · subst ha1; exact le_trans (le_max_right i a) (ih (max i a)).1
      · exact (ih (max i x)).2 a ha1

theorem le_maxD {α : Type} [LinearOrder α] {a : α} {l : List α} (d : α)
    (h : a ∈ l) : a ≤ maxD l d := by
  cases l with
  | nil => cases h
  | cons x xs =>
      rcases List.mem_cons.mp h with h1 | h1
      · subst h1; exact (le_foldl_max xs a).1
      · exact (le_foldl_max xs x).2 a h1

/-- `max(0.0, min(100.0, x))`. -/
def clamp0100 (x : ℚ) : ℚ := max 0 (min 100 x)

theorem clamp0100_mem (x : ℚ) : 0 ≤ clamp0100 x ∧ clamp0100 x ≤ 100 := by
  unfold clamp0100
  constructor
  · exact le_max_left 0 _
  · rcases max_cases (0 : ℚ) (min 100 x) with ⟨he, -⟩ | ⟨he, -⟩ <;> rw [he]
    · norm_num
    · exact min_le_left 100 x

theorem round2_clamp_mem (x : ℚ) :
    0 ≤ round2 (clamp0100 x) ∧ round2 (clamp0100 x) ≤ 100 :=
  round2_mem_Icc (clamp0100_mem x).1 (clamp0100_mem x).2

/-- The sorted unique branch list `sorted(ms["branch"].unique().tolist())`. -/
def branchesListOf (t : Tables) : List String :=
  ssort strLt (firstDedup (t.ms.map (fun r => r.branch)))

/-- Comparator for `bdf.sort_values(["year", "month_num"])`. -/
def ymLt (r s : SalesRow) : Bool :=
  if r.year < s.year then true
  else if s.year < r.year then false
  else decide (monthIdx r.month < monthIdx s.month)

/-- MoM growth percentages over consecutive totals, skipping pairs whose
left value is not positive (`if totals[i-1] > 0`). -/
def growthsOf : List ℚ → List ℚ
  | [] => []
  | [_] => []
  | a :: b :: t => (if 0 < a then [(b - a) / a * 100] else []) ++ growthsOf (b :: t)

/-- `_demand_trend_score`. -/
def demandTrendScore (b : String) (ms : List SalesRow) : ℚ :=
  let totals := (ssort ymLt ((ssort salesLt ms).filter (fun r => r.branch = b))).map
    (fun r => r.total)
  if totals.length < 2 then 50
  else
    let growths := growthsOf totals
    let avgGrowth := if growths = [] then 0 else meanQ growths
    round2 (clamp0100 (50 + avgGrowth * (1/2)))

/-- `all_totals[b]`: the branch's summed monthly revenue. -/
def branchTotal (ms : List SalesRow) (b : String) : ℚ :=
  ((ms.filter (fun r => r.branch = b)).map (fun r => r.total)).sum

/-- `_branch_strength_score` (note: not clamped). -/
def branchStrengthScore (b : String) (ms : List SalesRow) (branches : List String) : ℚ :=
  let total := branchTotal ms b
  let maxTotal := maxD (branches.map (branchTotal ms)) 1
  round2 (if 0 < maxTotal then total / maxTotal * 100 else 0)

/-- `_avg_ticket_score`. -/
def avgTicketScore (b : String) (ch : List ChannelRow) : ℚ :=
  let bch := ch.filter (fun r => r.branch = b)
  if bch = [] then 50
  else
    let avgTicket := meanQ (bch.map (fun r => r.avgPerCustomer))
    let chBranches := firstDedup (ch.map (fun r => r.branch))
    let maxAvg := maxD (chBranches.map
      (fun x => meanQ ((ch.filter (fun r => r.branch = x)).map (fun r => r.avgPerCustomer)))) 1
    let ticketNorm := if 0 < maxAvg then avgTicket / maxAvg * 100 else 0
    let diversityBonus : ℚ := ((min ((bch.length - 1) * 20) 40 : ℕ) : ℚ)
    round2 (clamp0100 (ticketNorm * (7/10) + diversityBonus * (3/10) + 30 * (3/10)))

/-- `_repeat_customer_score`. -/
def repeatCustomerScore (b : String) (co : List CustRow) : ℚ :=
  let bco := co.filter (fun r => r.branch = b)
  if bco = [] then 50
  else
    let totalCust := bco.length
    let repeatCust := (bco.filter (fun r => decide (1 < r.numOrders))).length
    let repeatPct : ℚ := if 0 < totalCust then (repeatCust : ℚ) / (totalCust : ℚ) * 100 else 0
    round2 (clamp0100 (20 + repeatPct * (80/30)))

/-- `_product_mix_score`. -/
def productMixScore (b : String) (items : List ItemRow) : ℚ :=
  let bi := items.filter (fun r => r.branch = b)
  if bi = [] then 50
  else
    let nSkus := (firstDedup (bi.map (fun r => r.description))).length
    let divisions := firstDedup (bi.map (fun r => r.division))
    let divRev := fun d => ((bi.filter (fun r => r.division = d)).map (fun r => r.totalAmount)).sum
    let totalRev := (divisions.map divRev).sum
    let hhi := if 0 < totalRev then (divisions.map (fun d => (divRev d / totalRev) ^ 2)).sum else 1
    let itemBranches := firstDedup (items.map (fun r => r.branch))
    let maxSkus := maxD (itemBranches.map
      (fun x => (firstDedup ((items.filter (fun r => r.branch = x)).map
        (fun r => r.description))).length)) 1
    let skuNorm := if 0 < maxSkus then (nSkus : ℚ) / (maxSkus : ℚ) * 100 else 0
    round2 (clamp0100 (skuNorm * (6/10) + ((1 - hhi) * 100) * (4/10)))

/-- `_BEVERAGE_DIVISIONS`. -/
def BEVERAGE_DIVISIONS : List String :=
  ["Hot-Coffee Based", "Frappes", "Shakes", "Hot and Cold Drinks", "Bev Add-ons"]

/-- `_beverage_attachment_score`, returning the score and the rounded
`bev_pct` detail the archetype profile reads back. -/
def beverageAttachmentScore (b : String) (dc : List DivChanRow) : ℚ × ℚ :=
  let bdc := dc.filter (fun r => r.sectionName = b)
  if bdc = [] then (50, 0)
  else
    let itemsTotal := ((bdc.filter (fun r => r.item = "ITEMS")).map (fun r => r.total)).sum
    let bevTotal := ((bdc.filter (fun r => decide (r.item ∈ BEVERAGE_DIVISIONS))).map
      (fun r => r.total)).sum
    let bevPct := if 0 < itemsTotal then bevTotal / itemsTotal * 100 else 0
    (round2 (max 0 (min (bevPct * (100/20)) 100)), round2 bevPct)

/-- One scorecard: the six dimension scores (details other than `bev_pct`
elided) and the composite. -/
structure Scorecard where
  branch : String
  demandTrend : ℚ
  branchStrength : ℚ
  avgTicketHealth : ℚ
  repeatCustomer : ℚ
  productMix : ℚ
  beverageAttachment : ℚ
  bevPct : ℚ
  composite : ℚ
deriving DecidableEq, Inhabited

/-- The per-branch scorecard built inside `evaluate_expansion`, with the
composite as the fixed weighted sum 0.25/0.20/0.15/0.10/0.15/0.15. -/
def scorecardFor (t : Tables) (branches : List String) (b : String) : Scorecard :=
  let d := demandTrendScore b t.ms
  let s := branchStrengthScore b t.ms branches
  let a := avgTicketScore b t.ch
  let r := repeatCustomerScore b t.co
  let m := productMixScore b t.items
  let bev := beverageAttachmentScore b t.dc
  { branch := b, demandTrend := d, branchStrength := s, avgTicketHealth := a,
    repeatCustomer := r, productMix := m, beverageAttachment := bev.1, bevPct := bev.2,
    composite := round2 (d * (25/100) + s * (20/100) + a * (15/100) + r * (10/100)
      + m * (15/100) + bev.1 * (15/100)) }

/-- Comparator of `scorecards.sort(key=composite, reverse=True)`. -/
def scLt (a b : Scorecard) : Bool := decide (b.composite < a.composite)

/-- Comparator for the descending sort of division revenues. -/
def catLt (a b : String × ℚ) : Bool := decide (b.2 < a.2)

/-- `verdict` from the best composite: >= 65 GO, >= 45 CAUTION, else NO-GO. -/
def verdictOf (s : ℚ) : String :=
  if 65 ≤ s then "GO" else if 45 ≤ s then "CAUTION" else "NO-GO"

/-- The archetype profile of the best branch (templated recommendation text
elided). -/
structure Archetype where
  branch : String
  compositeScore : ℚ
  channelMix : List (String × ℚ)
  topCategories : List (String × ℚ)
  beveragePct : ℚ
deriving DecidableEq, Inhabited

/-- One scored candidate location (textual pros and cons elided). -/
structure CandidateRec where
  area : String
  governorate : String
  score : ℚ
  population : ℚ
  universityNearby : Bool
  footTrafficTier : ℤ
  rentTier : ℤ
  cafeDensity : String
deriving DecidableEq, Inhabited

/-- `density_map.get(value, 1)`. -/
def cafeDensityCode (s : String) : ℕ :=
  if s = "low" then 1 else if s = "medium" then 2 else if s = "high" then 3 else 1

/-- The attractiveness scoring of one candidate area. -/
def scoreArea (row : AreaRow) : CandidateRec :=
  let popScore : ℚ := min (row.estimatedPopulation / 5000) 100
  let uniBonus : ℚ := if row.universityNearby = 1 then 15 else 0
  let foot : ℚ := (row.footTrafficTier : ℚ) * 20
  let rentPenalty : ℚ := (row.commercialRentTier : ℚ) * 5
  let cd := cafeDensityCode row.estimatedCafeDensity
  let cafeScore : ℚ := if cd = 1 then 30 else if cd = 2 then 50 else 35
  let attractiveness := clamp0100 (popScore * (30/100) + uniBonus + foot * (25/100)
    + cafeScore * (20/100) - rentPenalty * (10/100))
  { area := row.area, governorate := row.governorate, score := round2 attractiveness,
    population := row.estimatedPopulation,
    universityNearby := decide (row.universityNearby = 1),
    footTrafficTier := row.footTrafficTier, rentTier := row.commercialRentTier,
    cafeDensity := row.estimatedCafeDensity }

/-- Comparator of `scored.sort(key=score, reverse=True)`. -/
def candLt (a b : CandidateRec) : Bool := decide (b.score < a.score)

/-- `_score_candidate_locations`: skip served areas, score, sort descending. -/
def scoreCandidateLocations (areas : List AreaRow) : List CandidateRec :=
  ssort candLt ((areas.filter (fun r => decide (¬ r.conutPresent = 1))).map scoreArea)

/-- The full-result record of `evaluate_expansion` (verdict detail, risks
and explanation strings elided: each is templated from the fields kept). -/
structure ExpansionResult where
  verdict : String
  bestArchetype : Archetype
  scorecards : List Scorecard
  candidateLocations : List CandidateRec
deriving DecidableEq, Inhabited

/-- Either the unknown-branch error record or the full result. -/
inductive ExpansionOutput where
  | unknownBranch (label : String) (available : List String)
      (didYouMean : Option (List String))
  | ok (r : ExpansionResult)
deriving DecidableEq

/-- The body of `evaluate_expansion` after branch validation; `none` models
the `IndexError` the code raises at `scorecards[0]` when the monthly-sales
table has no branches at all.  Note the branch argument does not occur:
after validation the code never uses `branch_label` again. -/
def mainResult (t : Tables) : Option ExpansionResult :=
  let branches := branchesListOf t
  let scorecards := branches.map (scorecardFor t branches)
  match ssort scLt scorecards with
  | [] => none
  | best :: rest =>
      let bi := t.items.filter (fun r => r.branch = best.branch)
      let divisions := firstDedup (bi.map (fun r => r.division))
      let catPairs := divisions.map
        (fun d => (d, ((bi.filter (fun r => r.division = d)).map (fun r => r.totalAmount)).sum))
      some
        { verdict := verdictOf best.composite,
          bestArchetype :=
            { branch := best.branch,
              compositeScore := best.composite,
              channelMix := (t.ch.filter (fun r => r.branch = best.branch)).map
                (fun r => (r.channel, round2 r.sales)),
              topCategories := ((ssort catLt catPairs).take 5).map
                (fun p => (p.1, round2 p.2)),
              beveragePct := best.bevPct },
          scorecards := best :: rest,
          candidateLocations := (scoreCandidateLocations t.areas).take 10 }

/-- Python `str.strip()` whitespace test (ASCII whitespace). -/
def isPySpace (c : Char) : Bool := decide (c.toNat = 32 ∨ (9 ≤ c.toNat ∧ c.toNat ≤ 13))

/-- `branch.strip()`. -/
def myTrim (s : String) : String :=
  ⟨((s.toList.dropWhile isPySpace).reverse.dropWhile isPySpace).reverse⟩

/-- ASCII `str.lower()`. -/
def lowerChar (c : Char) : Char :=
  if 65 ≤ c.toNat ∧ c.toNat ≤ 90 then Char.ofNat (c.toNat + 32) else c

def myToLower (s : String) : String := ⟨s.toList.map lowerChar⟩

/-- Whether the first character list starts the second. -/
def startsWithSeq : List Char → List Char → Bool
  | [], _ => true
  | _ :: _, [] => false
  | a :: as, b :: bs => a = b && startsWithSeq as bs

/-- Python substring containment (`needle in hay`). -/
def containsSeq (n : List Char) : List Char → Bool
  | [] => startsWithSeq n []
  | c :: t => startsWithSeq n (c :: t) || containsSeq n t

/-- `evaluate_expansion(branch)`: case-insensitive validation against the
branch list (the dict comprehension keeps the last branch for a duplicate
lowercased key, hence the reversed lookup), then the branch-independent body. -/
def evaluateExpansion (t : Tables) (branch : String) : Option ExpansionOutput :=
  let branches := branchesListOf t
  let label := myTrim branch
  if label ≠ "" ∧ myToLower label ≠ "all" then
    match (branches.reverse).find? (fun x => myToLower x = myToLower label) with
    | none =>
        let close := branches.filter
          (fun x => containsSeq (myToLower label).toList (myToLower x).toList)
        some (ExpansionOutput.unknownBranch label branches
          (if close = [] then none else some close))
    | some _ => (mainResult t).map ExpansionOutput.ok
  else (mainResult t).map ExpansionOutput.ok

/-- The branch argument resolves: empty after stripping, the "all" sentinel,
or a case-insensitive match with some branch of the table. -/
def branchResolves (t : Tables) (branch : String) : Prop :=
  myTrim branch = "" ∨ myToLower (myTrim branch) = "all" ∨
    ((branchesListOf t).reverse.find?
      (fun x => myToLower x = myToLower (myTrim branch))) ≠ none

/-! ## Expansion theorems -/

theorem evaluateExpansion_of_resolves (t : Tables) (b : String)
    (h : branchResolves t b) :
    evaluateExpansion t b = (mainResult t).map ExpansionOutput.ok := by
  rcases h with h | h | h
  · simp [evaluateExpansion, h]
  · simp [evaluateExpansion, h]
  · by_cases hc : myTrim b ≠ "" ∧ myToLower (myTrim b) ≠ "all"
    · obtain ⟨v, hv⟩ := Option.ne_none_iff_exists'.mp h
      simp only [evaluateExpansion, if_pos hc, hv]
    · simp only [evaluateExpansion, if_neg hc]

/-- Claim C10: for any two branch arguments that both resolve (empty, the
"all" sentinel, or a case-insensitive branch match) `evaluate_expansion`
returns identical results: beyond validation the branch argument is unused. -/
theorem claim_c10_branch_irrelevant (t : Tables) (b1 b2 : String)
    (h1 : branchResolves t b1) (h2 : branchResolves t b2) :
    evaluateExpansion t b1 = evaluateExpansion t b2 := by
  rw [evaluateExpansion_of_resolves t b1 h1, evaluateExpansion_of_resolves t b2 h2]

theorem mainResult_of_eval {t : Tables} {b : String} {r : ExpansionResult}
    (h : evaluateExpansion t b = some (ExpansionOutput.ok r)) :
    mainResult t = some r := by
  simp only [evaluateExpansion] at h
  cases hm : mainResult t with
  | none =>
      rw [hm] at h
      split at h
      · split at h
        · simp at h
        · simp at h
      · simp at h
  | some a =>
      rw [hm] at h
      split at h
      · split at h
        · simp at h
        · simp at h
          rw [h]
      · simp at h
        rw [h]

theorem mainResult_fields {t : Tables} {r : ExpansionResult}
    (h : mainResult t = some r) :
    r.verdict = verdictOf r.bestArchetype.compositeScore ∧
    r.candidateLocations = (scoreCandidateLocations t.areas).take 10 := by
  simp only [mainResult] at h
  split at h
  · cases h
  · rw [Option.some.injEq] at h
    subst h
    exact ⟨rfl, rfl⟩

/-- Claim C7: the verdict of `evaluate_expansion` equals the pure threshold
function `verdictOf` of the best archetype's composite score alone, and that
function returns GO exactly at scores at least 65, CAUTION exactly on
[45, 65) and NO-GO exactly below 45. -/
theorem claim_c7_verdict (t : Tables) (b : String) (r : ExpansionResult)
    (h : evaluateExpansion t b = some (ExpansionOutput.ok r)) :
    r.verdict = verdictOf r.bestArchetype.compositeScore ∧
    ∀ s : ℚ, (verdictOf s = "GO" ↔ 65 ≤ s) ∧
      (verdictOf s = "CAUTION" ↔ 45 ≤ s ∧ s < 65) ∧
      (verdictOf s = "NO-GO" ↔ s < 45) := by
  refine ⟨(mainResult_fields (mainResult_of_eval h)).1, ?_⟩
  intro s
  unfold verdictOf
  by_cases h1 : (65 : ℚ) ≤ s
  · rw [if_pos h1]
    refine ⟨⟨fun _ => h1, fun _ => rfl⟩, ⟨?_, ?_⟩, ⟨?_, ?_⟩⟩
    · intro hx; exact absurd hx (by decide)
    · rintro ⟨-, hx⟩; linarith
    · intro hx; exact absurd hx (by decide)
    · intro hx; linarith
  · by_cases h2 : (45 : ℚ) ≤ s
    · rw [if_neg h1, if_pos h2]
      refine ⟨⟨?_, ?_⟩, ⟨fun _ => ⟨h2, not_le.mp h1⟩, fun _ => rfl⟩, ⟨?_, ?_⟩⟩
      · intro hx; exact absurd hx (by decide)
      · intro hx; exact absurd hx (not_le.mp h1).not_le
      · intro hx; exact absurd hx (by decide)
      · intro hx; linarith
    · rw [if_neg h1, if_neg h2]
      refine ⟨⟨?_, ?_⟩, ⟨?_, ?_⟩, ⟨fun _ => not_le.mp h2, fun _ => rfl⟩⟩
      · intro hx; exact absurd hx (by decide)
      · intro hx; linarith
      · intro hx; exact absurd hx (by decide)
      · rintro ⟨hx, -⟩; exact absurd hx h2

theorem scoreArea_score_mem (row : AreaRow) :
    0 ≤ (scoreArea row).score ∧ (scoreArea row).score ≤ 100 := by
  unfold scoreArea
  exact round2_clamp_mem _

/-- Claim C9: the candidate-locations list contains only areas not already
served, each scored within [0,100]; it is sorted in descending score order,
has at most 10 entries, and is empty (with a well-defined result, no
exception) when every area is already served. -/
theorem claim_c9_candidates (t : Tables) (b : String) (r : ExpansionResult)
    (h : evaluateExpansion t b = some (ExpansionOutput.ok r)) :
    r.candidateLocations = (scoreCandidateLocations t.areas).take 10 ∧
    (∀ c ∈ r.candidateLocations,
      (∃ row ∈ t.areas, ¬ row.conutPresent = 1 ∧ c = scoreArea row) ∧
      0 ≤ c.score ∧ c.score ≤ 100) ∧
    r.candidateLocations.Pairwise (fun a b => b.score ≤ a.score) ∧
    r.candidateLocations.length ≤ 10 ∧
    ((∀ row ∈ t.areas, row.conutPresent = 1) → r.candidateLocations = []) := by
  have hcl := (mainResult_fields (mainResult_of_eval h)).2
  have hasym : ∀ a b : CandidateRec, candLt a b = true → candLt b a = false := by
    intro a b hab
    simp only [candLt, decide_eq_true_eq] at hab
    simp only [candLt, decide_eq_false_iff_not]
    exact lt_asymm hab
  have htrans : ∀ a b c : CandidateRec, candLt a b = true → candLt b c = true →
      candLt a c = true := by
    intro a b c hab hbc
    simp only [candLt, decide_eq_true_eq] at hab hbc ⊢
    exact lt_trans hbc hab
  refine ⟨hcl, ?_, ?_, ?_, ?_⟩
  · intro c hc
    rw [hcl] at hc
    have hc1 : c ∈ scoreCandidateLocations t.areas := List.mem_of_mem_take hc
    unfold scoreCandidateLocations at hc1
    rw [mem_ssort] at hc1
    rcases List.mem_map.mp hc1 with ⟨row, hrow, rfl⟩
    rcases List.mem_filter.mp hrow with ⟨hrmem, hrpred⟩
    refine ⟨⟨row, hrmem, ?_, rfl⟩, scoreArea_score_mem row⟩
    simpa using hrpred
  · rw [hcl]
    refine List.Pairwise.sublist (List.take_sublist _ _) ?_
    refine (ssort_pairwise candLt hasym htrans _).imp ?_
    intro a b hab
    simp only [candLt, decide_eq_false_iff_not] at hab
    exact le_of_not_lt hab
  · rw [hcl]
    exact List.length_take_le _ _
  · intro hall
    rw [hcl]
    have hf : t.areas.filter (fun a => decide (¬ a.conutPresent = 1)) = [] := by
      rw [List.filter_eq_nil_iff]
      intro a ha
      simpa using hall a ha
    unfold scoreCandidateLocations
    rw [hf]
    rfl

/-- Score range invariant. -/
def inRange (x : ℚ) : Prop := 0 ≤ x ∧ x ≤ 100

theorem demandTrendScore_mem (b : String) (ms : List SalesRow) :
    inRange (demandTrendScore b ms) := by
  unfold inRange
  simp only [demandTrendScore]
  split
  · norm_num
  · exact round2_clamp_mem _

theorem branchStrengthScore_mem {b : String} (ms : List SalesRow)
    {branches : List String} (hb : b ∈ branches)
    (hpos : ∀ x ∈ branches, 0 ≤ branchTotal ms x) :
    inRange (branchStrengthScore b ms branches) := by
  unfold inRange
  simp only [branchStrengthScore]
  by_cases hmx : 0 < maxD (branches.map (branchTotal ms)) 1
  · rw [if_pos hmx]
    have h1 : 0 ≤ branchTotal ms b := hpos b hb
    have h2 : branchTotal ms b ≤ maxD (branches.map (branchTotal ms)) 1 :=
      le_maxD 1 (List.mem_map.mpr ⟨b, hb, rfl⟩)
    apply round2_mem_Icc
    · have := div_nonneg h1 hmx.le
      linarith
    · have hle : branchTotal ms b / maxD (branches.map (branchTotal ms)) 1 ≤ 1 :=
        (div_le_one hmx).mpr h2
      linarith
  · rw [if_neg hmx]
    exact round2_mem_Icc le_rfl (by norm_num)

theorem avgTicketScore_mem (b : String) (ch : List ChannelRow) :
    inRange (avgTicketScore b ch) := by
  unfold inRange
  simp only [avgTicketScore]
  split
  · norm_num
  · exact round2_clamp_mem _

theorem repeatCustomerScore_mem (b : String) (co : List CustRow) :
    inRange (repeatCustomerScore b co) := by
  unfold inRange
  simp only [repeatCustomerScore]
  split
  · norm_num
  · exact round2_clamp_mem _

theorem productMixScore_mem (b : String) (items : List ItemRow) :
    inRange (productMixScore b items) := by
  unfold inRange
  simp only [productMixScore]
  split
  · norm_num
  · exact round2_clamp_mem _

theorem beverageAttachmentScore_mem (b : String) (dc : List DivChanRow) :
    inRange (beverageAttachmentScore b dc).1 := by
  unfold inRange
  simp only [beverageAttachmentScore]
  split
  · norm_num
  · apply round2_mem_Icc
    · exact le_max_left 0 _
    · exact max_le (by norm_num) (min_le_right _ 100)

/-- Claim C3 (amended): provided every branch's total monthly revenue is
non-negative, all six dimension scores of every scorecard lie in [0,100] and
hence so does the composite (the fixed convex combination
0.25/0.20/0.15/0.10/0.15/0.15); without the non-negativity proviso the
branch-strength dimension — the only unclamped one — escapes the range. -/
theorem claim_c3_scores_in_range (t : Tables)
    (hpos : ∀ x ∈ branchesListOf t, 0 ≤ branchTotal t.ms x)
    (b : String) (hb : b ∈ branchesListOf t) :
    inRange ((scorecardFor t (branchesListOf t) b).demandTrend) ∧
    inRange ((scorecardFor t (branchesListOf t) b).branchStrength) ∧
    inRange ((scorecardFor t (branchesListOf t) b).avgTicketHealth) ∧
    inRange ((scorecardFor t (branchesListOf t) b).repeatCustomer) ∧
    inRange ((scorecardFor t (branchesListOf t) b).productMix) ∧
    inRange ((scorecardFor t (branchesListOf t) b).beverageAttachment) ∧
    inRange ((scorecardFor t (branchesListOf t) b).composite) := by
  have hd := demandTrendScore_mem b t.ms
  have hs := branchStrengthScore_mem t.ms hb hpos
  have ha := avgTicketScore_mem b t.ch
  have hr := repeatCustomerScore_mem b t.co
  have hm := productMixScore_mem b t.items
  have hbv := beverageAttachmentScore_mem b t.dc
  have hcomp : inRange ((scorecardFor t (branchesListOf t) b).composite) := by
    show inRange (round2 (demandTrendScore b t.ms * (25/100)
      + branchStrengthScore b t.ms (branchesListOf t) * (20/100)
      + avgTicketScore b t.ch * (15/100) + repeatCustomerScore b t.co * (10/100)
      + productMixScore b t.items * (15/100)
      + (beverageAttachmentScore b t.dc).1 * (15/100)))
    obtain ⟨hd1, hd2⟩ := hd
    obtain ⟨hs1, hs2⟩ := hs
    obtain ⟨ha1, ha2⟩ := ha
    obtain ⟨hr1, hr2⟩ := hr
    obtain ⟨hm1, hm2⟩ := hm
    obtain ⟨hb1, hb2⟩ := hbv
    exact round2_mem_Icc (by linarith) (by linarith)
  exact ⟨hd, hs, ha, hr, hm, hbv, hcomp⟩

theorem firstDedup_ne_nil {α : Type} [DecidableEq α] (a : α) (l : List α) :
    firstDedup (a :: l) ≠ [] := by
  simp [firstDedup, firstDedupAux]

theorem mainResult_isSome (t : Tables) (hne : t.ms ≠ []) :
    ∃ r, mainResult t = some r := by
  have hbl : branchesListOf t ≠ [] := by
    cases hms : t.ms with
    | nil => exact absurd hms hne
    | cons x xs =>
        unfold branchesListOf
        rw [hms]
        intro hc
        have h2 := ssort_length strLt (firstDedup ((x :: xs).map (fun r => r.branch)))
        rw [hc] at h2
        simp only [List.length_nil] at h2
        rw [List.map_cons] at h2
        exact firstDedup_ne_nil x.branch (xs.map (fun r => r.branch))
          (List.length_eq_zero.mp h2.symm)
  simp only [mainResult]
  cases hs : ssort scLt ((branchesListOf t).map (scorecardFor t (branchesListOf t))) with
  | nil =>
      exfalso
      have hlen := ssort_length scLt ((branchesListOf t).map (scorecardFor t (branchesListOf t)))
      rw [hs] at hlen
      simp only [List.length_nil, List.length_map] at hlen
      exact hbl (List.length_eq_zero.mp hlen.symm)
  | cons best rest =>
      exact ⟨_, rfl⟩

/-- A small all-positive set of tables used to instantiate expansion
theorems. -/
def T1 : Tables :=
  { ms := dfTiny,
    ch := [{ branch := "Hamra", channel := "TABLE", avgPerCustomer := 5, sales := 100 }],
    co := [{ branch := "Hamra", numOrders := 2 }],
    items := [{ branch := "Hamra", description := "Latte", division := "Beverages",
                totalAmount := 50 }],
    dc := [{ sectionName := "Hamra", item := "ITEMS", total := 100 },
           { sectionName := "Hamra", item := "Frappes", total := 20 }],
    areas := [{ area := "Jbeil", governorate := "Mount Lebanon",
                estimatedPopulation := 40000, universityNearby := 1, footTrafficTier := 3,
                commercialRentTier := 2, estimatedCafeDensity := "medium", conutPresent := 0 },
              { area := "Tripoli", governorate := "North", estimatedPopulation := 200000,
                universityNearby := 1, footTrafficTier := 4, commercialRentTier := 3,
                estimatedCafeDensity := "high", conutPresent := 1 }] }

/-- The same tables with every candidate area already served. -/
def TAllP : Tables :=
  { ms := dfTiny,
    ch := T1.ch, co := T1.co, items := T1.items, dc := T1.dc,
    areas := [{ area := "Jbeil", governorate := "Mount Lebanon",
                estimatedPopulation := 40000, universityNearby := 1, footTrafficTier := 3,
                commercialRentTier := 2, estimatedCafeDensity := "medium", conutPresent := 1 },
              { area := "Tripoli", governorate := "North", estimatedPopulation := 200000,
                universityNearby := 1, footTrafficTier := 4, commercialRentTier := 3,
                estimatedCafeDensity := "high", conutPresent := 1 }] }

/-- Tables where branch A has a data point in every source table but a
negative total revenue, branch B a positive one. -/
def TNeg : Tables :=
  { ms := [{ branch := "A", year := 2025, month := "August", total := -100 },
           { branch := "B", year := 2025, month := "August", total := 50 }],
    ch := [{ branch := "A", channel := "TABLE", avgPerCustomer := 5, sales := 10 },
           { branch := "B", channel := "TABLE", avgPerCustomer := 5, sales := 10 }],
    co := [{ branch := "A", numOrders := 2 }, { branch := "B", numOrders := 1 }],
    items := [{ branch := "A", description := "Latte", division := "Beverages",
                totalAmount := 10 },
              { branch := "B", description := "Latte", division := "Beverages",
                totalAmount := 10 }],
    dc := [{ sectionName := "A", item := "ITEMS", total := 10 },
           { sectionName := "B", item := "ITEMS", total := 10 }],
    areas := [{ area := "Jbeil", governorate := "Mount Lebanon",
                estimatedPopulation := 40000, universityNearby := 1, footTrafficTier := 3,
                commercialRentTier := 2, estimatedCafeDensity := "medium", conutPresent := 0 }] }

/-- Claim C3 (counterexample): branch A has a data point in every source
table, yet with a negative total revenue (-100 against the peer maximum 50)
its branch-strength dimension score is -200, outside [0,100]: that scorer is
the only one of the six with no clamp. -/
theorem claim_c3_counterexample :
    branchesListOf TNeg = ["A", "B"] ∧
    TNeg.ms.filter (fun r => r.branch = "A") ≠ [] ∧
    TNeg.ch.filter (fun r => r.branch = "A") ≠ [] ∧
    TNeg.co.filter (fun r => r.branch = "A") ≠ [] ∧
    TNeg.items.filter (fun r => r.branch = "A") ≠ [] ∧
    TNeg.dc.filter (fun r => r.sectionName = "A") ≠ [] ∧
    (scorecardFor TNeg (branchesListOf TNeg) "A").branchStrength = -200 ∧
    ¬ inRange ((scorecardFor TNeg (branchesListOf TNeg) "A").branchStrength) := by
  have hbl : branchesListOf TNeg = ["A", "B"] := by decide
  have t1 : branchTotal TNeg.ms "A" = -100 := by
    simp [branchTotal, TNeg]
  have t2 : branchTotal TNeg.ms "B" = 50 := by
    simp [branchTotal, TNeg]
  have hstr : (scorecardFor TNeg (branchesListOf TNeg) "A").branchStrength = -200 := by
    show branchStrengthScore "A" TNeg.ms (branchesListOf TNeg) = -200
    rw [hbl]
    simp only [branchStrengthScore, List.map_cons, List.map_nil, t1, t2]
    norm_num [maxD, max_def, round2, roundTo]
  refine ⟨hbl, by decide, by decide, by decide, by decide, by decide, hstr, ?_⟩
  rw [inRange, hstr]
  norm_num

theorem claim_c3_witness :
    (∀ x ∈ branchesListOf T1, 0 ≤ branchTotal T1.ms x) ∧
    "Hamra" ∈ branchesListOf T1 ∧
    inRange ((scorecardFor T1 (branchesListOf T1) "Hamra").composite) := by
  have hbl : branchesListOf T1 = ["Hamra"] := by decide
  have hpos : ∀ x ∈ branchesListOf T1, 0 ≤ branchTotal T1.ms x := by
    rw [hbl]
    intro x hx
    simp only [List.mem_singleton] at hx
    subst hx
    norm_num [branchTotal, T1, dfTiny]
  have hb : "Hamra" ∈ branchesListOf T1 := by rw [hbl]; simp
  exact ⟨hpos, hb, (claim_c3_scores_in_range T1 hpos "Hamra" hb).2.2.2.2.2.2⟩

theorem claim_c7_witness :
    ∃ r, evaluateExpansion T1 "" = some (ExpansionOutput.ok r) ∧
      r.verdict = verdictOf r.bestArchetype.compositeScore ∧
      (verdictOf 70 = "GO" ↔ (65 : ℚ) ≤ 70) := by
  have hres : branchResolves T1 "" := Or.inl (by decide)
  obtain ⟨r, hr⟩ := mainResult_isSome T1 (by simp [T1, dfTiny])
  have he : evaluateExpansion T1 "" = some (ExpansionOutput.ok r) := by
    rw [evaluateExpansion_of_resolves T1 "" hres, hr]
    rfl
  have hc := claim_c7_verdict T1 "" r he
  exact ⟨r, he, hc.1, (hc.2 70).1⟩

theorem claim_c9_witness :
    ∃ r, evaluateExpansion TAllP "" = some (ExpansionOutput.ok r) ∧
      (∀ row ∈ TAllP.areas, row.conutPresent = 1) ∧
      r.candidateLocations = [] := by
  have hres : branchResolves TAllP "" := Or.inl (by decide)
  obtain ⟨r, hr⟩ := mainResult_isSome TAllP (by simp [TAllP, dfTiny])
  have he : evaluateExpansion TAllP "" = some (ExpansionOutput.ok r) := by
    rw [evaluateExpansion_of_resolves TAllP "" hres, hr]
    rfl
  have hall : ∀ row ∈ TAllP.areas, row.conutPresent = 1 := by decide
  exact ⟨r, he, hall, (claim_c9_candidates TAllP "" r he).2.2.2.2 hall⟩

theorem claim_c10_witness :
    branchResolves T1 "" ∧ branchResolves T1 " All " ∧
    evaluateExpansion T1 "" = evaluateExpansion T1 " All " := by
  have h1 : branchResolves T1 "" := Or.inl (by decide)
  have h2 : branchResolves T1 " All " := Or.inr (Or.inl (by decide))
  exact ⟨h1, h2, claim_c10_branch_irrelevant T1 "" " All " h1 h2⟩
